import Mathlib

/-!
Shallow embedding of `mcp_server.py`, the single source file of the
customer-support MCP server, together with proofs about the claims of its
specification.

The persistent SQLite store is modelled as an explicit `DB` value (a list of
customer rows and a list of ticket rows) threaded through the operations.
`CURRENT_TIMESTAMP` is modelled by an explicit `now : Nat` parameter; row
timestamps are `Nat` so that `ORDER BY created_at DESC` is ordering by `≥`.
SQL semantics embedded here:
  - `SELECT * WHERE id = ?` with `fetchone` is `List.find?` on the row list;
  - `ORDER BY created_at DESC` is a stable `mergeSort` by descending
    `created_at`;
  - `LIMIT ?` with a negative bound means no limit (SQLite semantics),
    otherwise it truncates to the bound;
  - `UPDATE ... WHERE id = ?` maps the update over every row whose id
    matches;
  - `INSERT` appends a row whose rowid is one more than the largest existing
    rowid (1 for an empty table), which is SQLite rowid assignment.
Python exceptions raised by an operation are modelled by `Except String`,
the message being `str(e)`.
-/

/-- A row of the `customers` table: columns id, name, email, phone, status,
created_at, updated_at. -/
structure Customer where
  id : Int
  name : String
  email : String
  phone : String
  status : String
  created_at : Nat
  updated_at : Nat
deriving DecidableEq, Repr

/-- A row of the `tickets` table: columns id, customer_id, issue, status,
priority, created_at. -/
structure Ticket where
  id : Int
  customer_id : Int
  issue : String
  status : String
  priority : String
  created_at : Nat
deriving DecidableEq, Repr

/-- The state of the SQLite database `support.db`. -/
structure DB where
  customers : List Customer
  tickets : List Ticket
deriving DecidableEq, Repr

/-- Comparator of `ORDER BY created_at DESC` for customer rows. -/
def customerNewer (a b : Customer) : Bool :=
  decide (b.created_at ≤ a.created_at)

/-- Comparator of `ORDER BY created_at DESC` for ticket rows. -/
def ticketNewer (a b : Ticket) : Bool :=
  decide (b.created_at ≤ a.created_at)

/-- Semantics of `LIMIT ?` in SQLite: a negative limit means no upper bound,
otherwise the row list is truncated to the limit. -/
def sqlLimit {α : Type} (limit : Int) (rows : List α) : List α :=
  if limit < 0 then rows else rows.take limit.toNat

/-- The rowid SQLite assigns to a fresh insert: one more than the largest
rowid in the table, or 1 when the table is empty. -/
def nextRowId (ts : List Ticket) : Int :=
  match ts with
  | [] => 1
  | t :: rest => (rest.foldl (fun m x => max m x.id) t.id) + 1

/-- Operation `get_customer(customer_id)`: `SELECT * FROM customers WHERE
id = ?`, `fetchone`; the returned `dict(row)`-or-empty-record is
`Option Customer`, `none` standing for the empty record. -/
def get_customer (db : DB) (customer_id : Int) : Option Customer :=
  db.customers.find? (fun c => c.id = customer_id)

/-- Operation `list_customers(status="active", limit=20)`:
`SELECT * FROM customers WHERE status = ? ORDER BY created_at DESC LIMIT ?`. -/
def list_customers (db : DB) (status : String := "active") (limit : Int := 20) :
    List Customer :=
  sqlLimit limit ((db.customers.filter (fun c => c.status = status)).mergeSort customerNewer)

/-- The allow-listed updatable fields of `update_customer`. -/
def allowed_fields : List String := ["name", "email", "phone", "status"]

/-- One `f = ?` assignment of the generated `SET` clause: sets the named
column of a customer row to the supplied string value; other keys cannot
occur (they were filtered against `allowed_fields`) and leave the row
unchanged. -/
def applyField (c : Customer) (kv : String × String) : Customer :=
  match kv.1 with
  | "name" => { c with name := kv.2 }
  | "email" => { c with email := kv.2 }
  | "phone" => { c with phone := kv.2 }
  | "status" => { c with status := kv.2 }
  | _ => c

/-- Operation `update_customer(customer_id, data)`: filters `data` to the
allow-listed fields, raises `ValueError("No valid fields to update.")` when
none remain, otherwise runs `UPDATE customers SET <fields>, updated_at =
CURRENT_TIMESTAMP WHERE id = ?`, commits, and re-selects the row (empty
record `none` when the id does not exist). `data` is a Python dict, modelled
as an association list in key-insertion order (dict keys are distinct). -/
def update_customer (db : DB) (now : Nat) (customer_id : Int)
    (data : List (String × String)) : Except String (DB × Option Customer) :=
  let fields := data.filter (fun kv => decide (kv.1 ∈ allowed_fields))
  if fields.isEmpty then
    .error "No valid fields to update."
  else
    let customers := db.customers.map (fun c =>
      if c.id = customer_id then
        { fields.foldl applyField c with updated_at := now }
      else c)
    let db' : DB := { db with customers := customers }
    .ok (db', db'.customers.find? (fun c => c.id = customer_id))

/-- Operation `create_ticket(customer_id, issue, priority="medium")`: raises
`ValueError` for a priority outside low/medium/high, otherwise
`INSERT INTO tickets (customer_id, issue, status, priority, created_at)
VALUES (?, ?, 'open', ?, CURRENT_TIMESTAMP)`, commits, and returns the freshly
inserted row (selected back by `lastrowid`). -/
def create_ticket (db : DB) (now : Nat) (customer_id : Int) (issue : String)
    (priority : String := "medium") : Except String (DB × Ticket) :=
  if ¬ (priority = "low" ∨ priority = "medium" ∨ priority = "high") then
    .error "priority must be one of: low, medium, high"
  else
    let t : Ticket :=
      { id := nextRowId db.tickets
        customer_id := customer_id
        issue := issue
        status := "open"
        priority := priority
        created_at := now }
    .ok ({ db with tickets := db.tickets ++ [t] }, t)

/-- Operation `get_customer_history(customer_id)`: fetches the customer; when absent
returns customer `None` with an empty ticket list, otherwise the customer and
`SELECT * FROM tickets WHERE customer_id = ? ORDER BY created_at DESC`. -/
def get_customer_history (db : DB) (customer_id : Int) :
    Option Customer × List Ticket :=
  match db.customers.find? (fun c => c.id = customer_id) with
  | none => (none, [])
  | some cust =>
      (some cust,
        (db.tickets.filter (fun t => t.customer_id = customer_id)).mergeSort ticketNewer)

/-- The keys of the `TOOLS` registry, in registration order. -/
def TOOLS : List String :=
  ["get_customer", "list_customers", "update_customer", "create_ticket",
   "get_customer_history"]

/-- The payload of a `result` event: the record (or record list) an operation
returned. `oCustomer none` is the empty record. -/
inductive Out where
  | oCustomer (c : Option Customer)
  | oCustomers (cs : List Customer)
  | oTicket (t : Ticket)
  | oHistory (customer : Option Customer) (tickets : List Ticket)
deriving DecidableEq, Repr

/-- One newline-delimited JSON chunk of the streamed response. `endEv` is the
`end` event (`end` is reserved in Lean). -/
inductive Event where
  | start (tool : String)
  | result (tool : String) (output : Out)
  | error (tool : String) (message : String)
  | endEv (tool : String)
deriving DecidableEq, Repr

/-- `fastapi.HTTPException`: a rejected request, no event stream produced. -/
structure HTTPError where
  status_code : Nat
  detail : String
deriving DecidableEq, Repr

/-- The `arguments` mapping of a call body, after Python keyword binding
against the signature of the resolved tool: optional parameters are `none`
when absent from the mapping (the Python default then applies), and
`aInvalid` stands for any mapping `func(**arguments)` rejects with a
`TypeError` (missing required key, unexpected key). -/
inductive ToolArgs where
  | aGetCustomer (customer_id : Int)
  | aListCustomers (status : Option String) (limit : Option Int)
  | aUpdateCustomer (customer_id : Int) (data : List (String × String))
  | aCreateTicket (customer_id : Int) (issue : String) (priority : Option String)
  | aGetCustomerHistory (customer_id : Int)
  | aInvalid
deriving DecidableEq, Repr

/-- Dispatch of `tool_def.func(**arguments)` inside the `try` block: sends the
resolved tool name to its registered operation, applying the Python defaults
for omitted optional arguments; any argument mapping that does not bind to
the signature raises a `TypeError`. Returns the database after the call and
the operation outcome. -/
def runTool (db : DB) (now : Nat) (name : String) (args : ToolArgs) :
    DB × Except String Out :=
  match name, args with
  | "get_customer", .aGetCustomer cid =>
      (db, .ok (.oCustomer (get_customer db cid)))
  | "list_customers", .aListCustomers status limit =>
      (db, .ok (.oCustomers (list_customers db (status.getD "active") (limit.getD 20))))
  | "update_customer", .aUpdateCustomer cid data =>
      match update_customer db now cid data with
      | .ok (db', r) => (db', .ok (.oCustomer r))
      | .error e => (db, .error e)
  | "create_ticket", .aCreateTicket cid issue priority =>
      match create_ticket db now cid issue (priority.getD "medium") with
      | .ok (db', t) => (db', .ok (.oTicket t))
      | .error e => (db, .error e)
  | "get_customer_history", .aGetCustomerHistory cid =>
      let h := get_customer_history db cid
      (db, .ok (.oHistory h.1 h.2))
  | _, _ => (db, .error "TypeError: arguments do not bind to the tool signature")

/-- Generator `event_stream()`: yields the start event, then the result event on
success or — catching any exception at this boundary — the error event
carrying `str(e)`, then the end event. -/
def event_stream (tool : String) (outcome : Except String Out) : List Event :=
  [Event.start tool] ++
    (match outcome with
     | .ok r => [Event.result tool r]
     | .error e => [Event.error tool e]) ++
    [Event.endEv tool]

/-- The JSON body of a `tools/call` request: `body.get("name")` (absent keys
give `None`; the falsy string is `""`) and the bound `arguments` mapping. -/
structure CallBody where
  name : Option String
  arguments : ToolArgs
deriving DecidableEq, Repr

/-- Endpoint `tools_call(body)`: rejects a missing (or falsy) name with 400
and an unknown name with 404 before any event is produced, otherwise streams
the event sequence of the invocation. Returns the database after the call
and the streamed events, or the `HTTPException`. -/
def tools_call (db : DB) (now : Nat) (body : CallBody) :
    Except HTTPError (DB × List Event) :=
  match body.name with
  | none => .error { status_code := 400, detail := "Missing name in request body." }
  | some name =>
      if name = "" then
        .error { status_code := 400, detail := "Missing name in request body." }
      else if name ∈ TOOLS then
        let r := runTool db now name body.arguments
        .ok (r.1, event_stream name r.2)
      else
        .error { status_code := 404, detail := "Unknown tool " ++ name ++ "." }

/-- A sample customer row, as `database_setup.py` would seed it. -/
def cAlice : Customer :=
  { id := 1, name := "Alice", email := "alice@example.com", phone := "555",
    status := "active", created_at := 10, updated_at := 10 }

/-- A sample database state: one active customer, no tickets. -/
def dbEx : DB := { customers := [cAlice], tickets := [] }

lemma applyField_id (c : Customer) (kv : String × String) :
    (applyField c kv).id = c.id := by
  unfold applyField
  split <;> rfl

lemma applyField_created_at (c : Customer) (kv : String × String) :
    (applyField c kv).created_at = c.created_at := by
  unfold applyField
  split <;> rfl

lemma applyField_status (c : Customer) (kv : String × String) :
    (applyField c kv).status = if kv.1 = "status" then kv.2 else c.status := by
  unfold applyField
  split <;> simp_all

lemma applyField_name (c : Customer) (kv : String × String) :
    (applyField c kv).name = if kv.1 = "name" then kv.2 else c.name := by
  unfold applyField
  split <;> simp_all

lemma applyField_email (c : Customer) (kv : String × String) :
    (applyField c kv).email = if kv.1 = "email" then kv.2 else c.email := by
  unfold applyField
  split <;> simp_all

lemma applyField_phone (c : Customer) (kv : String × String) :
    (applyField c kv).phone = if kv.1 = "phone" then kv.2 else c.phone := by
  unfold applyField
  split <;> simp_all

lemma foldl_applyField_id (fields : List (String × String)) :
    ∀ c : Customer, (fields.foldl applyField c).id = c.id := by
  induction fields with
  | nil => intro c; rfl
  | cons kv rest ih => intro c; rw [List.foldl_cons, ih, applyField_id]

lemma foldl_applyField_created_at (fields : List (String × String)) :
    ∀ c : Customer, (fields.foldl applyField c).created_at = c.created_at := by
  induction fields with
  | nil => intro c; rfl
  | cons kv rest ih => intro c; rw [List.foldl_cons, ih, applyField_created_at]

lemma foldl_applyField_absent (sel : Customer → String) (key : String)
    (hsel : ∀ c kv, sel (applyField c kv) = if kv.1 = key then kv.2 else sel c)
    (fields : List (String × String))
    (h : ∀ kv ∈ fields, kv.1 ≠ key) :
    ∀ c : Customer, sel (fields.foldl applyField c) = sel c := by
  induction fields with
  | nil => intro c; rfl
  | cons kv rest ih =>
      intro c
      rw [List.foldl_cons, ih (fun kv' h' => h kv' (List.mem_cons_of_mem _ h')), hsel,
        if_neg (h kv (List.mem_cons_self _ _))]

lemma foldl_applyField_last (sel : Customer → String) (key : String)
    (hsel : ∀ c kv, sel (applyField c kv) = if kv.1 = key then kv.2 else sel c)
    (fields : List (String × String)) (v : String)
    (hnodup : (fields.map Prod.fst).Nodup) (hv : (key, v) ∈ fields) :
    ∀ c : Customer, sel (fields.foldl applyField c) = v := by
  induction fields with
  | nil => cases hv
  | cons kv rest ih =>
      intro c
      rw [List.foldl_cons]
      have hn := List.nodup_cons.mp (show (kv.1 :: rest.map Prod.fst).Nodup from hnodup)
      rcases List.mem_cons.mp hv with h | h
      · have hrest : ∀ kv' ∈ rest, kv'.1 ≠ key := by
          intro kv' h' heq
          have hmem : key ∈ rest.map Prod.fst := heq ▸ List.mem_map_of_mem Prod.fst h'
          exact hn.1 ((congrArg Prod.fst h) ▸ hmem)
        rw [foldl_applyField_absent sel key hsel rest hrest, hsel, ← h, if_pos rfl]
      · exact ih hn.2 h (applyField c kv)

lemma le_foldl_maxId (rest : List Ticket) :
    ∀ init : Int, init ≤ rest.foldl (fun m x => max m x.id) init := by
  induction rest with
  | nil => intro init; simp
  | cons t rest ih =>
      intro init
      exact le_trans (le_max_left _ _) (ih _)

lemma mem_le_foldl_maxId (rest : List Ticket) :
    ∀ (init : Int) (t : Ticket), t ∈ rest → t.id ≤ rest.foldl (fun m x => max m x.id) init := by
  induction rest with
  | nil => intro _ t ht; cases ht
  | cons s rest ih =>
      intro init t ht
      rcases List.mem_cons.mp ht with rfl | h
      · exact le_trans (le_max_right _ _) (le_foldl_maxId rest _)
      · exact ih _ t h

lemma nextRowId_fresh (ts : List Ticket) : ∀ t ∈ ts, t.id < nextRowId ts := by
  intro t ht
  cases ts with
  | nil => cases ht
  | cons s rest =>
      show t.id < (rest.foldl (fun m x => max m x.id) s.id) + 1
      have hle : t.id ≤ rest.foldl (fun m x => max m x.id) s.id := by
        rcases List.mem_cons.mp ht with rfl | h
        · exact le_foldl_maxId rest _
        · exact mem_le_foldl_maxId rest _ t h
      omega

lemma ticketNewer_trans : ∀ a b c : Ticket,
    ticketNewer a b = true → ticketNewer b c = true → ticketNewer a c = true := by
  intro a b c hab hbc
  simp only [ticketNewer, decide_eq_true_eq] at *
  omega

lemma ticketNewer_total : ∀ a b : Ticket, (ticketNewer a b || ticketNewer b a) = true := by
  intro a b
  simp only [ticketNewer, Bool.or_eq_true, decide_eq_true_eq]
  omega

lemma customerNewer_trans : ∀ a b c : Customer,
    customerNewer a b = true → customerNewer b c = true → customerNewer a c = true := by
  intro a b c hab hbc
  simp only [customerNewer, decide_eq_true_eq] at *
  omega

lemma customerNewer_total : ∀ a b : Customer, (customerNewer a b || customerNewer b a) = true := by
  intro a b
  simp only [customerNewer, Bool.or_eq_true, decide_eq_true_eq]
  omega

lemma foldl_applyField_status_prop (P : String → Prop) (fields : List (String × String))
    (hf : ∀ kv ∈ fields, kv.1 = "status" → P kv.2) :
    ∀ c : Customer, P c.status → P (fields.foldl applyField c).status := by
  induction fields with
  | nil => intro c h; exact h
  | cons kv rest ih =>
      intro c hc
      rw [List.foldl_cons]
      apply ih (fun kv' h' => hf kv' (List.mem_cons_of_mem _ h'))
      rw [applyField_status]
      by_cases h : kv.1 = "status"
      · rw [if_pos h]; exact hf kv (List.mem_cons_self _ _) h
      · rw [if_neg h]; exact hc

/-- C1: for every invocation whose tool name resolves in the registry, the
request is accepted and the streamed event sequence is exactly one start
event, one terminal content event (result exactly when the operation
succeeds, error exactly when it raises), and one end event, in that strict
order; every operation failure is caught at the dispatch boundary and
becomes the error event, so the sequence always completes. -/
theorem c1_event_lifecycle (db : DB) (now : Nat) (body : CallBody) (name : String)
    (h1 : body.name = some name) (h2 : name ∈ TOOLS) :
    ∃ db2 events, tools_call db now body = .ok (db2, events) ∧
      ∃ mid, events = [Event.start name, mid, Event.endEv name] ∧
        ((∃ r, mid = Event.result name r) ∨ (∃ e, mid = Event.error name e)) ∧
        (∀ r, (runTool db now name body.arguments).2 = .ok r →
          mid = Event.result name r) ∧
        (∀ e, (runTool db now name body.arguments).2 = .error e →
          mid = Event.error name e) := by
  have hne : name ≠ "" := by
    rintro rfl
    simp [TOOLS] at h2
  refine ⟨(runTool db now name body.arguments).1,
    event_stream name (runTool db now name body.arguments).2, ?_, ?_⟩
  · simp [tools_call, h1, hne, h2]
  · rcases hout : (runTool db now name body.arguments).2 with e | r
    · refine ⟨Event.error name e, by simp [event_stream], Or.inr ⟨e, rfl⟩, ?_, ?_⟩
      · intro r hr
        exact Except.noConfusion hr
      · intro e' he
        injection he with h
        rw [h]
    · refine ⟨Event.result name r, by simp [event_stream], Or.inl ⟨r, rfl⟩, ?_, ?_⟩
      · intro r' hr
        injection hr with h
        rw [h]
      · intro e he
        exact Except.noConfusion he

/-- Witness for C1: a concrete resolved invocation of `get_customer`. -/
theorem c1_event_lifecycle_witness :
    ∃ db2 events,
      tools_call dbEx 0 { name := some "get_customer", arguments := ToolArgs.aGetCustomer 1 } =
        .ok (db2, events) ∧
      ∃ mid, events = [Event.start "get_customer", mid, Event.endEv "get_customer"] ∧
        ((∃ r, mid = Event.result "get_customer" r) ∨
          (∃ e, mid = Event.error "get_customer" e)) ∧
        (∀ r, (runTool dbEx 0 "get_customer" (ToolArgs.aGetCustomer 1)).2 = .ok r →
          mid = Event.result "get_customer" r) ∧
        (∀ e, (runTool dbEx 0 "get_customer" (ToolArgs.aGetCustomer 1)).2 = .error e →
          mid = Event.error "get_customer" e) :=
  c1_event_lifecycle dbEx 0
    { name := some "get_customer", arguments := ToolArgs.aGetCustomer 1 }
    "get_customer" rfl (by decide)

/-- C2 counterexample: a present-but-empty tool name does not resolve in the
registry, yet the request is rejected with status 400 (the falsy-name check),
not with the claimed not-found status 404. -/
theorem c2_counterexample :
    ¬ ("" ∈ TOOLS) ∧
    tools_call dbEx 0 { name := some "", arguments := ToolArgs.aInvalid } =
      .error { status_code := 400, detail := "Missing name in request body." } := by
  exact ⟨by decide, rfl⟩

/-- C2 (amended): a missing name — and likewise the falsy empty-string name —
is rejected with client-error status 400; a present, non-empty name that does
not resolve in the registry is rejected with not-found status 404; in every
rejected case no event is produced (the call yields no event stream). -/
theorem c2_reject_before_events (db : DB) (now : Nat) (body : CallBody) :
    (body.name = none →
      tools_call db now body =
        .error { status_code := 400, detail := "Missing name in request body." }) ∧
    (body.name = some "" →
      tools_call db now body =
        .error { status_code := 400, detail := "Missing name in request body." }) ∧
    (∀ name, body.name = some name → name ≠ "" → ¬ (name ∈ TOOLS) →
      tools_call db now body =
        .error { status_code := 404, detail := "Unknown tool " ++ name ++ "." }) := by
  refine ⟨?_, ?_, ?_⟩
  · intro h
    simp [tools_call, h]
  · intro h
    simp [tools_call, h]
  · intro name h hne hni
    simp [tools_call, h, hne, hni]

/-- Witness for C2 (amended): the unknown tool name of the spec scenario is
rejected with 404. -/
theorem c2_reject_before_events_witness :
    tools_call dbEx 0 { name := some "delete_customer", arguments := ToolArgs.aInvalid } =
      .error { status_code := 404, detail := "Unknown tool delete_customer." } :=
  (c2_reject_before_events dbEx 0
      { name := some "delete_customer", arguments := ToolArgs.aInvalid }).2.2
    "delete_customer" rfl (by decide) (by decide)

/-- C3 counterexample: `list_customers` invoked with the out-of-enum status
"archived" does not fail with a ValidationError; the invocation emits a
result event (with the empty list), not an error event. -/
theorem c3_counterexample :
    ¬ ("archived" = "active" ∨ "archived" = "disabled") ∧
    tools_call dbEx 0 { name := some "list_customers",
                        arguments := ToolArgs.aListCustomers (some "archived") none } =
      .ok (dbEx, [Event.start "list_customers",
                  Event.result "list_customers" (Out.oCustomers []),
                  Event.endEv "list_customers"]) := by
  refine ⟨by decide, ?_⟩
  simp [tools_call, runTool, event_stream, list_customers, sqlLimit, dbEx, cAlice, TOOLS]

/-- C3 (amended): the code performs no enum validation of `status`; on every
store, an invocation of `list_customers` with a status outside the enum
succeeds with a result event — never a ValidationError error event — whose
payload is the stored customers carrying exactly that status; the payload is
the empty list whenever the store satisfies the status invariant. -/
theorem c3_list_customers_bad_status (db : DB) (now : Nat) (status : String)
    (limit : Option Int)
    (hstatus : ¬ (status = "active" ∨ status = "disabled")) :
    runTool db now "list_customers" (ToolArgs.aListCustomers (some status) limit) =
      (db, .ok (.oCustomers (list_customers db status (limit.getD 20)))) ∧
    (∀ c ∈ list_customers db status (limit.getD 20), c.status = status) ∧
    ((limit.getD 20) < 0 →
      (list_customers db status (limit.getD 20)).Perm
        (db.customers.filter (fun c => c.status = status))) ∧
    ((∀ c ∈ db.customers, c.status = "active" ∨ c.status = "disabled") →
      list_customers db status (limit.getD 20) = []) := by
  refine ⟨rfl, ?_, ?_, ?_⟩
  · intro c hc
    have hmem : c ∈ (db.customers.filter (fun c => c.status = status)).mergeSort
        customerNewer := by
      unfold list_customers sqlLimit at hc
      by_cases h : limit.getD 20 < 0
      · rwa [if_pos h] at hc
      · rw [if_neg h] at hc
        exact List.mem_of_mem_take hc
    have hmf := (List.mergeSort_perm (db.customers.filter (fun c => c.status = status))
      customerNewer).mem_iff.mp hmem
    simpa using (List.mem_filter.mp hmf).2
  · intro h
    unfold list_customers sqlLimit
    rw [if_pos h]
    exact List.mergeSort_perm _ _
  · intro hinv
    have hfil : db.customers.filter (fun c => c.status = status) = [] := by
      rw [List.filter_eq_nil_iff]
      intro c hc
      simp only [decide_eq_true_eq]
      intro h
      rcases hinv c hc with h' | h'
      · exact hstatus (Or.inl (h.symm.trans h'))
      · exact hstatus (Or.inr (h.symm.trans h'))
    simp [list_customers, hfil, sqlLimit]

/-- Witness for C3 (amended): the out-of-enum status "archived" on the sample
store succeeds with the status-filtered payload. -/
theorem c3_list_customers_bad_status_witness :
    runTool dbEx 0 "list_customers" (ToolArgs.aListCustomers (some "archived") (some 20)) =
      (dbEx, .ok (.oCustomers (list_customers dbEx "archived" 20))) ∧
    (∀ c ∈ list_customers dbEx "archived" 20, c.status = "archived") ∧
    ((20 : Int) < 0 →
      (list_customers dbEx "archived" 20).Perm
        (dbEx.customers.filter (fun c => c.status = "archived"))) ∧
    ((∀ c ∈ dbEx.customers, c.status = "active" ∨ c.status = "disabled") →
      list_customers dbEx "archived" 20 = []) :=
  c3_list_customers_bad_status dbEx 0 "archived" (some 20) (by decide)

/-- C4 counterexample: starting from a store in which every customer has an
in-enum status, `update_customer` accepts the out-of-enum status "archived"
(the key "status" is allow-listed, the value is never validated) and the
resulting store holds a customer whose status is outside the enum. -/
theorem c4_counterexample :
    (∀ c ∈ dbEx.customers, c.status = "active" ∨ c.status = "disabled") ∧
    update_customer dbEx 99 1 [("status", "archived")] =
      Except.ok ({ customers := [{ cAlice with status := "archived", updated_at := 99 }],
                   tickets := [] },
                 some { cAlice with status := "archived", updated_at := 99 }) ∧
    ¬ (({ cAlice with status := "archived", updated_at := 99 } : Customer).status = "active" ∨
       ({ cAlice with status := "archived", updated_at := 99 } : Customer).status = "disabled") := by
  exact ⟨by decide, rfl, by decide⟩

/-- C4 (amended): `update_customer` preserves the status invariant provided
every value supplied under the "status" key of `data` is itself in the enum;
the code never validates the value, so the unconditional claim fails. -/
theorem c4_status_invariant (db : DB) (now : Nat) (cid : Int)
    (data : List (String × String)) (db2 : DB) (r : Option Customer)
    (hinv : ∀ c ∈ db.customers, c.status = "active" ∨ c.status = "disabled")
    (hdata : ∀ kv ∈ data, kv.1 = "status" → kv.2 = "active" ∨ kv.2 = "disabled")
    (hok : update_customer db now cid data = Except.ok (db2, r)) :
    ∀ c ∈ db2.customers, c.status = "active" ∨ c.status = "disabled" := by
  simp only [update_customer] at hok
  by_cases hemp : (data.filter (fun kv => decide (kv.1 ∈ allowed_fields))).isEmpty
  · rw [if_pos hemp] at hok
    exact Except.noConfusion hok
  · rw [if_neg hemp] at hok
    rw [Except.ok.injEq, Prod.mk.injEq] at hok
    obtain ⟨hdb, hr⟩ := hok
    intro c hc
    rw [← hdb] at hc
    simp only [List.mem_map] at hc
    obtain ⟨c0, hc0, rfl⟩ := hc
    by_cases hid : c0.id = cid
    · rw [if_pos hid]
      show ((data.filter (fun kv => decide (kv.1 ∈ allowed_fields))).foldl applyField c0).status =
          "active" ∨
        ((data.filter (fun kv => decide (kv.1 ∈ allowed_fields))).foldl applyField c0).status =
          "disabled"
      apply foldl_applyField_status_prop (fun s => s = "active" ∨ s = "disabled")
      · intro kv hkv hkey
        exact hdata kv (List.mem_of_mem_filter hkv) hkey
      · exact hinv c0 hc0
    · rw [if_neg hid]
      exact hinv c0 hc0

/-- Witness for C4 (amended): an in-enum status update on the sample store
keeps the status of the one stored customer in the enum. -/
theorem c4_status_invariant_witness :
    ({ cAlice with status := "disabled", updated_at := 7 } : Customer).status = "active" ∨
    ({ cAlice with status := "disabled", updated_at := 7 } : Customer).status = "disabled" :=
  c4_status_invariant dbEx 7 1 [("status", "disabled")]
    { customers := [{ cAlice with status := "disabled", updated_at := 7 }], tickets := [] }
    (some { cAlice with status := "disabled", updated_at := 7 })
    (by decide) (by decide) rfl
    { cAlice with status := "disabled", updated_at := 7 } (by decide)

/-- C5: when `data` is empty or contains only keys outside the allow-list,
`update_customer` fails with the exact message "No valid fields to update."
and the invocation surfaces it as the error event of the stream. -/
theorem c5_no_valid_fields (db : DB) (now : Nat) (cid : Int)
    (data : List (String × String))
    (h : ∀ kv ∈ data, ¬ (kv.1 ∈ allowed_fields)) :
    update_customer db now cid data = .error "No valid fields to update." ∧
    tools_call db now { name := some "update_customer",
                        arguments := ToolArgs.aUpdateCustomer cid data } =
      .ok (db, [Event.start "update_customer",
                Event.error "update_customer" "No valid fields to update.",
                Event.endEv "update_customer"]) := by
  have hfil : data.filter (fun kv => decide (kv.1 ∈ allowed_fields)) = [] := by
    rw [List.filter_eq_nil_iff]
    intro kv hkv
    simpa using h kv hkv
  have hupd : update_customer db now cid data = .error "No valid fields to update." := by
    simp [update_customer, hfil]
  refine ⟨hupd, ?_⟩
  simp [tools_call, TOOLS, runTool, hupd, event_stream]

/-- Witness for C5: updating with a single unrecognized key fails with the
exact message and the three-event stream carries it. -/
theorem c5_no_valid_fields_witness :
    update_customer dbEx 0 1 [("nickname", "Al")] = .error "No valid fields to update." ∧
    tools_call dbEx 0 { name := some "update_customer",
                        arguments := ToolArgs.aUpdateCustomer 1 [("nickname", "Al")] } =
      .ok (dbEx, [Event.start "update_customer",
                  Event.error "update_customer" "No valid fields to update.",
                  Event.endEv "update_customer"]) :=
  c5_no_valid_fields dbEx 0 1 [("nickname", "Al")] (by decide)

/-- C6: `create_ticket` with a priority outside the enum fails with a
ValidationError; with a valid priority (and with the default "medium" when
the argument is omitted) it appends exactly one ticket whose status is
"open", whose id differs from every existing ticket id, and returns the full
created record. -/
theorem c6_create_ticket (db : DB) (now : Nat) (cid : Int) (issue priority : String) :
    (¬ (priority = "low" ∨ priority = "medium" ∨ priority = "high") →
      create_ticket db now cid issue priority =
        .error "priority must be one of: low, medium, high" ∧
      runTool db now "create_ticket" (ToolArgs.aCreateTicket cid issue (some priority)) =
        (db, .error "priority must be one of: low, medium, high")) ∧
    ((priority = "low" ∨ priority = "medium" ∨ priority = "high") →
      ∃ db2 t, create_ticket db now cid issue priority = .ok (db2, t) ∧
        t.status = "open" ∧
        (∀ t0 ∈ db.tickets, t0.id ≠ t.id) ∧
        db2.customers = db.customers ∧
        db2.tickets = db.tickets ++ [t] ∧
        t.customer_id = cid ∧ t.issue = issue ∧ t.priority = priority ∧
        runTool db now "create_ticket" (ToolArgs.aCreateTicket cid issue (some priority)) =
          (db2, .ok (.oTicket t))) ∧
    (∃ db2 t, runTool db now "create_ticket" (ToolArgs.aCreateTicket cid issue none) =
        (db2, .ok (.oTicket t)) ∧
      t.priority = "medium" ∧ t.status = "open" ∧ db2.tickets = db.tickets ++ [t]) := by
  refine ⟨?_, ?_, ?_⟩
  · intro h
    constructor
    · simp [create_ticket, h]
    · simp [runTool, create_ticket, h]
  · intro h
    rcases h with rfl | rfl | rfl <;>
      exact ⟨_, _, rfl, rfl,
        fun t0 ht0 => Int.ne_of_lt (nextRowId_fresh db.tickets t0 ht0),
        rfl, rfl, rfl, rfl, rfl, rfl⟩
  · exact ⟨_, _, rfl, rfl, rfl, rfl⟩

/-- Witness for C6: an invalid priority fails, a valid one creates the open
ticket with a fresh id. -/
theorem c6_create_ticket_witness :
    (¬ ("urgent" = "low" ∨ "urgent" = "medium" ∨ "urgent" = "high") →
      create_ticket dbEx 5 1 "login failure" "urgent" =
        .error "priority must be one of: low, medium, high" ∧
      runTool dbEx 5 "create_ticket" (ToolArgs.aCreateTicket 1 "login failure" (some "urgent")) =
        (dbEx, .error "priority must be one of: low, medium, high")) ∧
    (("urgent" = "low" ∨ "urgent" = "medium" ∨ "urgent" = "high") →
      ∃ db2 t, create_ticket dbEx 5 1 "login failure" "urgent" = .ok (db2, t) ∧
        t.status = "open" ∧
        (∀ t0 ∈ dbEx.tickets, t0.id ≠ t.id) ∧
        db2.customers = dbEx.customers ∧
        db2.tickets = dbEx.tickets ++ [t] ∧
        t.customer_id = 1 ∧ t.issue = "login failure" ∧ t.priority = "urgent" ∧
        runTool dbEx 5 "create_ticket" (ToolArgs.aCreateTicket 1 "login failure" (some "urgent")) =
          (db2, .ok (.oTicket t))) ∧
    (∃ db2 t, runTool dbEx 5 "create_ticket" (ToolArgs.aCreateTicket 1 "login failure" none) =
        (db2, .ok (.oTicket t)) ∧
      t.priority = "medium" ∧ t.status = "open" ∧ db2.tickets = dbEx.tickets ++ [t]) :=
  c6_create_ticket dbEx 5 1 "login failure" "urgent"

lemma update_field_applied (sel : Customer → String) (key : String)
    (hsel : ∀ c kv, sel (applyField c kv) = if kv.1 = key then kv.2 else sel c)
    (hkey : key ∈ allowed_fields)
    (data : List (String × String)) (hnodup : (data.map Prod.fst).Nodup)
    (c : Customer) :
    (∀ v, (key, v) ∈ data →
      sel ((data.filter (fun kv => decide (kv.1 ∈ allowed_fields))).foldl applyField c) = v) ∧
    ((∀ v, ¬ ((key, v) ∈ data)) →
      sel ((data.filter (fun kv => decide (kv.1 ∈ allowed_fields))).foldl applyField c) = sel c) := by
  constructor
  · intro v hv
    have hnf : ((data.filter (fun kv => decide (kv.1 ∈ allowed_fields))).map Prod.fst).Nodup :=
      hnodup.sublist ((List.filter_sublist _).map Prod.fst)
    exact foldl_applyField_last sel key hsel _ v hnf
      (List.mem_filter.mpr ⟨hv, by simpa using hkey⟩) c
  · intro hnv
    apply foldl_applyField_absent sel key hsel
    intro kv hkv heq
    apply hnv kv.2
    have hkv' : kv = (key, kv.2) := by rw [← heq]
    rw [← hkv']
    exact List.mem_of_mem_filter hkv

/-- C7: when `data` holds at least one allow-listed field, `update_customer`
succeeds; the matching row receives every allow-listed field present in
`data`, gets `updated_at` refreshed, and is returned as the post-update
record; rows with other ids and the tickets table are untouched; when no row
has the given id the store is unchanged and the empty record is returned,
not an error. `data` is a Python dict, so its keys are distinct. -/
theorem c7_update_applies (db : DB) (now : Nat) (cid : Int)
    (data : List (String × String))
    (hnodup : (data.map Prod.fst).Nodup)
    (hsome : ∃ kv ∈ data, kv.1 ∈ allowed_fields) :
    ∃ db2 r, update_customer db now cid data = Except.ok (db2, r) ∧
      db2.tickets = db.tickets ∧
      db2.customers.length = db.customers.length ∧
      (∀ c ∈ db.customers, c.id ≠ cid → c ∈ db2.customers) ∧
      (db.customers.find? (fun x => x.id = cid) = none → db2 = db ∧ r = none) ∧
      (∀ c, db.customers.find? (fun x => x.id = cid) = some c →
        ∃ c2, r = some c2 ∧ c2 ∈ db2.customers ∧
          c2.id = c.id ∧ c2.created_at = c.created_at ∧ c2.updated_at = now ∧
          (∀ v, ("name", v) ∈ data → c2.name = v) ∧
          ((∀ v, ¬ (("name", v) ∈ data)) → c2.name = c.name) ∧
          (∀ v, ("email", v) ∈ data → c2.email = v) ∧
          ((∀ v, ¬ (("email", v) ∈ data)) → c2.email = c.email) ∧
          (∀ v, ("phone", v) ∈ data → c2.phone = v) ∧
          ((∀ v, ¬ (("phone", v) ∈ data)) → c2.phone = c.phone) ∧
          (∀ v, ("status", v) ∈ data → c2.status = v) ∧
          ((∀ v, ¬ (("status", v) ∈ data)) → c2.status = c.status)) := by
  have hne : (data.filter (fun kv => decide (kv.1 ∈ allowed_fields))).isEmpty = false := by
    obtain ⟨kv, hkv, hall⟩ := hsome
    have hmem : kv ∈ data.filter (fun kv => decide (kv.1 ∈ allowed_fields)) :=
      List.mem_filter.mpr ⟨hkv, by simpa using hall⟩
    rcases hfe : data.filter (fun kv => decide (kv.1 ∈ allowed_fields)) with _ | ⟨a, l⟩
    · rw [hfe] at hmem
      cases hmem
    · rw [hfe]
      rfl
  have hupd : update_customer db now cid data =
      Except.ok
        ({ db with customers := db.customers.map (fun c =>
            if c.id = cid then
              { (data.filter (fun kv => decide (kv.1 ∈ allowed_fields))).foldl applyField c with
                  updated_at := now }
            else c) },
         (db.customers.map (fun c =>
            if c.id = cid then
              { (data.filter (fun kv => decide (kv.1 ∈ allowed_fields))).foldl applyField c with
                  updated_at := now }
            else c)).find? (fun c => c.id = cid)) := by
    simp only [update_customer, hne, Bool.false_eq_true, if_false]
  have hf_id : ∀ a : Customer,
      ((fun c => if c.id = cid then
          { (data.filter (fun kv => decide (kv.1 ∈ allowed_fields))).foldl applyField c with
              updated_at := now }
        else c) a).id = a.id := by
    intro a
    by_cases h : a.id = cid
    · simp only [if_pos h]
      exact foldl_applyField_id _ a
    · simp only [if_neg h]
  refine ⟨_, _, hupd, rfl, db.customers.length_map _, ?_, ?_, ?_⟩
  · intro c hc hid
    exact List.mem_map.mpr ⟨c, hc, by simp [hid]⟩
  · intro hnone
    have hall : ∀ a ∈ db.customers, a.id ≠ cid := by
      intro a ha
      have := List.find?_eq_none.mp hnone a ha
      simpa using this
    have hmap : db.customers.map (fun c =>
        if c.id = cid then
          { (data.filter (fun kv => decide (kv.1 ∈ allowed_fields))).foldl applyField c with
              updated_at := now }
        else c) = db.customers := by
      have hcg : ∀ a ∈ db.customers, (fun c : Customer =>
          if c.id = cid then
            { (data.filter (fun kv => decide (kv.1 ∈ allowed_fields))).foldl applyField c with
                updated_at := now }
          else c) a = id a := by
        intro a ha
        simp [hall a ha]
      rw [List.map_congr_left hcg, List.map_id]
    constructor
    · rw [hmap]
    · rw [hmap, hnone]
  · intro c hfind
    have hidc : c.id = cid := by simpa using List.find?_some hfind
    have hcomp : ((fun x : Customer => decide (x.id = cid)) ∘ (fun c =>
        if c.id = cid then
          { (data.filter (fun kv => decide (kv.1 ∈ allowed_fields))).foldl applyField c with
              updated_at := now }
        else c)) = fun x : Customer => decide (x.id = cid) := by
      funext a
      simp only [Function.comp_apply, hf_id]
    have hfind2 : (db.customers.map (fun c =>
        if c.id = cid then
          { (data.filter (fun kv => decide (kv.1 ∈ allowed_fields))).foldl applyField c with
              updated_at := now }
        else c)).find? (fun x => x.id = cid) =
        some (if c.id = cid then
          { (data.filter (fun kv => decide (kv.1 ∈ allowed_fields))).foldl applyField c with
              updated_at := now }
        else c) := by
      rw [List.find?_map, hcomp, hfind]
      rfl
    rw [if_pos hidc] at hfind2
    refine ⟨_, hfind2, ?_, ?_, ?_, rfl, ?_, ?_, ?_, ?_, ?_, ?_, ?_, ?_⟩
    · have hmem0 := List.mem_map_of_mem (fun c =>
        if c.id = cid then
          { (data.filter (fun kv => decide (kv.1 ∈ allowed_fields))).foldl applyField c with
              updated_at := now }
        else c) (List.mem_of_find?_eq_some hfind)
      simpa [hidc] using hmem0
    · exact foldl_applyField_id _ c
    · exact foldl_applyField_created_at _ c
    · exact fun v hv => (update_field_applied Customer.name "name" applyField_name
        (by decide) data hnodup c).1 v hv
    · exact fun hnv => (update_field_applied Customer.name "name" applyField_name
        (by decide) data hnodup c).2 hnv
    · exact fun v hv => (update_field_applied Customer.email "email" applyField_email
        (by decide) data hnodup c).1 v hv
    · exact fun hnv => (update_field_applied Customer.email "email" applyField_email
        (by decide) data hnodup c).2 hnv
    · exact fun v hv => (update_field_applied Customer.phone "phone" applyField_phone
        (by decide) data hnodup c).1 v hv
    · exact fun hnv => (update_field_applied Customer.phone "phone" applyField_phone
        (by decide) data hnodup c).2 hnv
    · exact fun v hv => (update_field_applied Customer.status "status" applyField_status
        (by decide) data hnodup c).1 v hv
    · exact fun hnv => (update_field_applied Customer.status "status" applyField_status
        (by decide) data hnodup c).2 hnv

/-- Witness for C7: a concrete update carrying one allow-listed and one
unrecognized key. -/
theorem c7_update_applies_witness :
    ∃ db2 r, update_customer dbEx 42 1 [("name", "Alicia"), ("nickname", "Al")] =
        Except.ok (db2, r) ∧
      db2.tickets = dbEx.tickets ∧
      db2.customers.length = dbEx.customers.length ∧
      (∀ c ∈ dbEx.customers, c.id ≠ 1 → c ∈ db2.customers) ∧
      (dbEx.customers.find? (fun x => x.id = 1) = none → db2 = dbEx ∧ r = none) ∧
      (∀ c, dbEx.customers.find? (fun x => x.id = 1) = some c →
        ∃ c2, r = some c2 ∧ c2 ∈ db2.customers ∧
          c2.id = c.id ∧ c2.created_at = c.created_at ∧ c2.updated_at = 42 ∧
          (∀ v, ("name", v) ∈ [("name", "Alicia"), ("nickname", "Al")] → c2.name = v) ∧
          ((∀ v, ¬ (("name", v) ∈ [("name", "Alicia"), ("nickname", "Al")])) →
            c2.name = c.name) ∧
          (∀ v, ("email", v) ∈ [("name", "Alicia"), ("nickname", "Al")] → c2.email = v) ∧
          ((∀ v, ¬ (("email", v) ∈ [("name", "Alicia"), ("nickname", "Al")])) →
            c2.email = c.email) ∧
          (∀ v, ("phone", v) ∈ [("name", "Alicia"), ("nickname", "Al")] → c2.phone = v) ∧
          ((∀ v, ¬ (("phone", v) ∈ [("name", "Alicia"), ("nickname", "Al")])) →
            c2.phone = c.phone) ∧
          (∀ v, ("status", v) ∈ [("name", "Alicia"), ("nickname", "Al")] → c2.status = v) ∧
          ((∀ v, ¬ (("status", v) ∈ [("name", "Alicia"), ("nickname", "Al")])) →
            c2.status = c.status)) :=
  c7_update_applies dbEx 42 1 [("name", "Alicia"), ("nickname", "Al")]
    (by decide) ⟨("name", "Alicia"), by decide, by decide⟩

/-- C8: for an id not in the store, `get_customer` returns the empty record
and `get_customer_history` returns the null-customer empty-ticket pair, both
as result (success) events; for a stored customer, `get_customer_history`
returns the customer together with exactly the tickets of that customer, ordered
newest-first, again as a result event. -/
theorem c8_absent_and_history (db : DB) (now : Nat) (cid : Int) :
    ((∀ c ∈ db.customers, c.id ≠ cid) →
      get_customer db cid = none ∧
      get_customer_history db cid = (none, []) ∧
      runTool db now "get_customer" (ToolArgs.aGetCustomer cid) =
        (db, .ok (.oCustomer none)) ∧
      runTool db now "get_customer_history" (ToolArgs.aGetCustomerHistory cid) =
        (db, .ok (.oHistory none []))) ∧
    (∀ c, db.customers.find? (fun x => x.id = cid) = some c →
      (get_customer_history db cid).1 = some c ∧
      (get_customer_history db cid).2.Perm
        (db.tickets.filter (fun t => t.customer_id = cid)) ∧
      (get_customer_history db cid).2.Pairwise
        (fun a b => b.created_at ≤ a.created_at) ∧
      runTool db now "get_customer_history" (ToolArgs.aGetCustomerHistory cid) =
        (db, .ok (.oHistory (some c) (get_customer_history db cid).2))) := by
  constructor
  · intro h
    have hnone : db.customers.find? (fun c => c.id = cid) = none := by
      rw [List.find?_eq_none]
      intro x hx
      simpa using h x hx
    refine ⟨hnone, ?_, ?_, ?_⟩
    · simp [get_customer_history, hnone]
    · simp [runTool, get_customer, hnone]
    · simp [runTool, get_customer_history, hnone]
  · intro c hfind
    have hhist : get_customer_history db cid =
        (some c, (db.tickets.filter (fun t => t.customer_id = cid)).mergeSort ticketNewer) := by
      simp [get_customer_history, hfind]
    refine ⟨by rw [hhist], ?_, ?_, ?_⟩
    · rw [hhist]
      exact List.mergeSort_perm _ _
    · rw [hhist]
      have hs := List.sorted_mergeSort ticketNewer_trans ticketNewer_total
        (db.tickets.filter (fun t => t.customer_id = cid))
      exact hs.imp (fun h => by simpa [ticketNewer] using h)
    · simp [runTool, hhist]

/-- Witness for C8: the spec scenario, customer_id 999 absent from the
sample store, and the stored customer id 1 present. -/
theorem c8_absent_and_history_witness :
    (get_customer dbEx 999 = none ∧
      get_customer_history dbEx 999 = (none, []) ∧
      runTool dbEx 0 "get_customer" (ToolArgs.aGetCustomer 999) =
        (dbEx, .ok (.oCustomer none)) ∧
      runTool dbEx 0 "get_customer_history" (ToolArgs.aGetCustomerHistory 999) =
        (dbEx, .ok (.oHistory none []))) ∧
    ((get_customer_history dbEx 1).1 = some cAlice ∧
      (get_customer_history dbEx 1).2.Perm
        (dbEx.tickets.filter (fun t => t.customer_id = 1)) ∧
      (get_customer_history dbEx 1).2.Pairwise
        (fun a b => b.created_at ≤ a.created_at) ∧
      runTool dbEx 0 "get_customer_history" (ToolArgs.aGetCustomerHistory 1) =
        (dbEx, .ok (.oHistory (some cAlice) (get_customer_history dbEx 1).2))) :=
  ⟨(c8_absent_and_history dbEx 0 999).1 (by decide),
   (c8_absent_and_history dbEx 0 1).2 cAlice (by decide)⟩

/-- C9 counterexample: SQLite treats a negative LIMIT as "no limit", so with
limit -1 and one matching customer the result has length 1, which is not at
most the limit; the claim fails for negative integer limits. -/
theorem c9_counterexample :
    list_customers dbEx "active" (-1) = [cAlice] ∧
    ¬ (((list_customers dbEx "active" (-1)).length : Int) ≤ -1) := by
  have h : list_customers dbEx "active" (-1) = [cAlice] := by
    simp [list_customers, sqlLimit, dbEx, cAlice]
  refine ⟨h, ?_⟩
  rw [h]
  decide

/-- C9 (amended): every returned record has exactly the requested status and
the sequence is ordered newest created first, for every integer limit; the
length is at most the limit for every non-negative limit, while a negative
limit means no upper bound (all matching rows are returned, SQLite LIMIT
semantics). -/
theorem c9_list_customers_shape (db : DB) (status : String) (limit : Int) :
    (∀ c ∈ list_customers db status limit, c.status = status) ∧
    (list_customers db status limit).Pairwise
      (fun a b => b.created_at ≤ a.created_at) ∧
    (0 ≤ limit → (list_customers db status limit).length ≤ limit.toNat) ∧
    (limit < 0 → (list_customers db status limit).Perm
      (db.customers.filter (fun c => c.status = status))) := by
  have hsorted := List.sorted_mergeSort customerNewer_trans customerNewer_total
    (db.customers.filter (fun c => c.status = status))
  refine ⟨?_, ?_, ?_, ?_⟩
  · intro c hc
    have hmem : c ∈ (db.customers.filter (fun c => c.status = status)).mergeSort
        customerNewer := by
      unfold list_customers sqlLimit at hc
      by_cases h : limit < 0
      · rwa [if_pos h] at hc
      · rw [if_neg h] at hc
        exact List.mem_of_mem_take hc
    have := (List.mergeSort_perm (db.customers.filter (fun c => c.status = status))
      customerNewer).mem_iff.mp hmem
    simpa using (List.mem_filter.mp this).2
  · unfold list_customers sqlLimit
    by_cases h : limit < 0
    · rw [if_pos h]
      exact hsorted.imp (fun h' => by simpa [customerNewer] using h')
    · rw [if_neg h]
      exact (hsorted.imp (fun h' => by simpa [customerNewer] using h')).sublist
        (List.take_sublist _ _)
  · intro h
    unfold list_customers sqlLimit
    rw [if_neg (by omega : ¬ limit < 0)]
    exact List.length_take_le _ _
  · intro h
    unfold list_customers sqlLimit
    rw [if_pos h]
    exact List.mergeSort_perm _ _

/-- Witness for C9 (amended): the sample store at limit 0 and at limit -1. -/
theorem c9_list_customers_shape_witness :
    ((0 : Int) ≤ 0 → (list_customers dbEx "active" 0).length ≤ (0 : Int).toNat) ∧
    ((-1 : Int) < 0 → (list_customers dbEx "active" (-1)).Perm
      (dbEx.customers.filter (fun c => c.status = "active"))) :=
  ⟨(c9_list_customers_shape dbEx "active" 0).2.2.1,
   (c9_list_customers_shape dbEx "active" (-1)).2.2.2⟩

/-- C10: a failed validation in `update_customer` (no valid fields) or
`create_ticket` (invalid priority) happens before the database connection is
opened; the dispatched call returns the store unchanged alongside the error
outcome. -/
theorem c10_error_atomicity (db : DB) (now : Nat) (cid cid2 : Int)
    (data : List (String × String)) (issue priority : String)
    (h1 : ∀ kv ∈ data, ¬ (kv.1 ∈ allowed_fields))
    (h2 : ¬ (priority = "low" ∨ priority = "medium" ∨ priority = "high")) :
    runTool db now "update_customer" (ToolArgs.aUpdateCustomer cid data) =
      (db, .error "No valid fields to update.") ∧
    runTool db now "create_ticket" (ToolArgs.aCreateTicket cid2 issue (some priority)) =
      (db, .error "priority must be one of: low, medium, high") := by
  have hfil : data.filter (fun kv => decide (kv.1 ∈ allowed_fields)) = [] := by
    rw [List.filter_eq_nil_iff]
    intro kv hkv
    simpa using h1 kv hkv
  constructor
  · simp [runTool, update_customer, hfil]
  · simp [runTool, create_ticket, h2]

/-- Witness for C10: a concrete no-valid-fields update and a concrete
invalid-priority ticket creation, both leaving the sample store unchanged. -/
theorem c10_error_atomicity_witness :
    runTool dbEx 0 "update_customer" (ToolArgs.aUpdateCustomer 1 [("id", "2")]) =
      (dbEx, .error "No valid fields to update.") ∧
    runTool dbEx 0 "create_ticket" (ToolArgs.aCreateTicket 1 "battery" (some "urgent")) =
      (dbEx, .error "priority must be one of: low, medium, high") :=
  c10_error_atomicity dbEx 0 1 1 [("id", "2")] "battery" "urgent" (by decide) (by decide)
